import Mathlib

/-!
Verification of the CitySense recommendation caching and request-orchestration
layer, shallowly embedded from `src/services/geminiService.ts`,
`src/unnamed/part_000` (App) and `src/unnamed/part_003` (Dashboard).

Modelling conventions:
* `localStorage` is an association list `Store` of string keys and stored
  values; a stored value is either the JSON serialization of a JS value
  (`StoreVal.json`) or a string that `JSON.parse` rejects (`StoreVal.malformed`).
* A parsed JS value (`Json`) is either an array of event records
  (`Json.events`) or some other JSON value (`Json.other`); the code never
  inspects non-array values further, it only crashes on `.map`.
* The raw collaborator response text is abstracted by `RawText`, which
  records how `cleanAndParseJSON` (after trimming and stripping markdown
  fences, lines 30-34 of geminiService.ts) classifies it.
* The AI collaborator call is an `Except Unit` parameter: `.error` models a
  thrown network/API error (including the missing-API-key throw of
  `getAIClient`), `.ok txt` the returned `response.text` (possibly undefined).
* `Date.now()` and `new Date().toDateString()` are string parameters `now`
  and `dateStr`, constant during one call.
* JS numeric interpolation `${idx}` is modelled by the executable decimal
  printer `natToString`.
* Record fields are `Option`s; `none` models an absent (undefined) field and
  JS string falsiness treats `some ""` like `none` (`jsTruthy`, `jsOr`).
-/

namespace CitySense

/-- The `RecommendationLevel` enum of `src/types.ts`. -/
inductive RecommendationLevel where
  | highlyRecommended
  | consider
  | notRecommended
deriving DecidableEq

/-- The `EventItem` shape of `src/types.ts`.  Every field is optional because
raw AI records may omit anything; `coordinates` floats are only carried,
never computed with, so they are modelled as an integer pair. -/
structure EventItem where
  id : Option String := none
  title : Option String := none
  description : Option String := none
  date : Option String := none
  location : Option String := none
  category : Option String := none
  imageUrl : Option String := none
  link : Option String := none
  recommendationLevel : Option RecommendationLevel := none
  justification : Option String := none
  price : Option String := none
  coordinates : Option (Int × Int) := none
  isUserCreated : Option Bool := none
deriving DecidableEq

/-- The `UserProfile` shape of `src/types.ts`. -/
structure UserProfile where
  name : String
  hasOnboarded : Bool
  interests : List String
  spotifyConnected : Bool
  topArtists : List String
  currentCity : String
deriving DecidableEq

/-- A parsed JS value: an array of event records, or any other JSON value
(number, object, string...), which the code does not validate. -/
inductive Json where
  | events (l : List EventItem)
  | other (tag : Nat)
deriving DecidableEq

/-- A value held in `localStorage`: the JSON serialization of a JS value
(so `JSON.parse` succeeds and returns it), the empty string (falsy in JS,
and rejected by `JSON.parse`), or a non-empty malformed string on which
`JSON.parse` throws. -/
inductive StoreVal where
  | json (v : Json)
  | emptyStr
  | malformed (tag : Nat)
deriving DecidableEq

/-- The semantics of `JSON.parse` on a stored string (`JSON.parse("")`
throws). -/
def jsParse : StoreVal → Option Json
  | .json v => some v
  | .emptyStr => none
  | .malformed _ => none

/-- JS truthiness of the stored string `cachedData` (geminiService.ts line
130, `if (cachedData)`): only the empty string is falsy. -/
def svTruthy : StoreVal → Bool
  | .emptyStr => false
  | .json _ => true
  | .malformed _ => true

/-- Classification of a raw collaborator response string as consumed by
`cleanAndParseJSON` (geminiService.ts lines 27-40) after trimming and
stripping markdown code fences: the empty string (falsy in JS), text whose
fence-stripped body is a JSON array of records, valid JSON that is not an
array, or text `JSON.parse` throws on. -/
inductive RawText where
  | emptyStr
  | jsonArr (l : List EventItem)
  | jsonNonArr (tag : Nat)
  | notJson (tag : Nat)
deriving DecidableEq

/-- `localStorage` as an association list of string keys to stored values. -/
abbrev Store := List (String × StoreVal)

/-- `localStorage.getItem`: the value at the first matching key. -/
def getItem : Store → String → Option StoreVal
  | [], _ => none
  | p :: rest, k => if p.1 = k then some p.2 else getItem rest k

/-- `localStorage.removeItem`. -/
def removeItem (st : Store) (k : String) : Store :=
  st.filter (fun p => !decide (p.1 = k))

/-- `localStorage.setItem` (last write wins at key granularity). -/
def setItem (st : Store) (k : String) (v : StoreVal) : Store :=
  removeItem st k ++ [(k, v)]

/-- `Object.keys(localStorage)`. -/
def storeKeys (st : Store) : List String := st.map (fun p => p.1)

/-- JS whitespace removal `city.replace(/\s+/g, '')` and
`title.replace(/\s/g, '')`. -/
def jsStripSpace (s : String) : String :=
  String.mk (s.data.filter (fun c => !c.isWhitespace))

/-- ASCII lowering of one character, as done by `toLowerCase`. -/
def jsLowerChar (c : Char) : Char :=
  if 65 ≤ c.toNat ∧ c.toNat ≤ 90 then Char.ofNat (c.toNat + 32) else c

/-- JS `toLowerCase`. -/
def jsToLowerCase (s : String) : String :=
  String.mk (s.data.map jsLowerChar)

/-- JS `city.substring(0, 3)`. -/
def jsSubstring3 (s : String) : String :=
  String.mk (s.data.take 3)

/-- JS `String.prototype.trim`. -/
def jsTrim (s : String) : String :=
  String.mk (((s.data.dropWhile Char.isWhitespace).reverse.dropWhile
    Char.isWhitespace).reverse)

/-- JS truthiness of a possibly-absent string field. -/
def jsTruthy : Option String → Bool
  | none => false
  | some s => !decide (s = "")

/-- JS `v || d` for a possibly-absent string `v` and a default `d`. -/
def jsOr : Option String → String → String
  | none, d => d
  | some s, d => if s = "" then d else s

/-- JS string coercion of a possibly-undefined value inside a template
literal (`undefined` prints as "undefined"). -/
def jsStr : Option String → String
  | none => "undefined"
  | some s => s

/-- `key.startsWith(pre)`. -/
def strStarts (s t : String) : Bool := t.data.isPrefixOf s.data

/-- Decimal digit character. -/
def digitChar10 : Nat → Char
  | 0 => '0' | 1 => '1' | 2 => '2' | 3 => '3' | 4 => '4'
  | 5 => '5' | 6 => '6' | 7 => '7' | 8 => '8' | _ => '9'

/-- Little-endian decimal digits of `n`, with explicit fuel so that the
kernel can evaluate it. -/
def decRevAux : Nat → Nat → List Char
  | 0, _ => []
  | f + 1, n =>
    if n < 10 then [digitChar10 n]
    else digitChar10 (n % 10) :: decRevAux f (n / 10)

/-- JS decimal rendering of a natural number (`${idx}`). -/
def natToString (n : Nat) : String :=
  String.mk (decRevAux (n + 1) n).reverse

/-- Uppercase hexadecimal digit character. -/
def hexChar : Nat → Char
  | 0 => '0' | 1 => '1' | 2 => '2' | 3 => '3' | 4 => '4' | 5 => '5'
  | 6 => '6' | 7 => '7' | 8 => '8' | 9 => '9' | 10 => 'A' | 11 => 'B'
  | 12 => 'C' | 13 => 'D' | 14 => 'E' | _ => 'F'

/-- A percent-escaped byte, e.g. `%2C`. -/
def pctByte (b : Nat) : List Char := ['%', hexChar (b / 16), hexChar (b % 16)]

/-- UTF-8 bytes of a code point. -/
def utf8Bytes (n : Nat) : List Nat :=
  if n < 128 then [n]
  else if n < 2048 then [192 + n / 64, 128 + n % 64]
  else if n < 65536 then [224 + n / 4096, 128 + n / 64 % 64, 128 + n % 64]
  else [240 + n / 262144, 128 + n / 4096 % 64, 128 + n / 64 % 64, 128 + n % 64]

/-- The characters `encodeURIComponent` leaves unescaped:
`A-Z a-z 0-9 - _ . ! ~ * ' ( )`. -/
def uriUnreserved (c : Char) : Bool :=
  let n := c.toNat
  (65 ≤ n && n ≤ 90) || (97 ≤ n && n ≤ 122) || (48 ≤ n && n ≤ 57) ||
  n == 45 || n == 95 || n == 46 || n == 33 || n == 126 || n == 42 ||
  n == 39 || n == 40 || n == 41

/-- JS `encodeURIComponent`. -/
def encodeURIComponent (s : String) : String :=
  String.mk (s.data.foldr
    (fun c acc =>
      (if uriUnreserved c then [c] else (utf8Bytes c.toNat).flatMap pctByte) ++ acc)
    [])

/-- The cache key scope marker `CACHE_KEY_PREFIX` of geminiService.ts
line 13 (`'CITYSENSE_EVENTS_CACHE_'`). -/
def cacheKeyBase : String := "CITYSENSE_EVENTS_CACHE_"

/-- `generateCacheKey` (geminiService.ts lines 16-24): prefix + calendar-day
string + `_` + whitespace-stripped lowercased city + `_` + the interests
sorted lexicographically and joined with `-`. -/
def generateCacheKey (dateStr city : String) (p : UserProfile) : String :=
  cacheKeyBase ++ dateStr ++ "_" ++ jsToLowerCase (jsStripSpace city) ++ "_" ++
    String.intercalate "-" (List.insertionSort (fun a b : String => a ≤ b) p.interests)

/-- `cleanAndParseJSON` (geminiService.ts lines 27-40): undefined or empty
text and parse failures yield `[]`; otherwise the parsed JSON value is
returned unvalidated (cast `as EventItem[]`). -/
def cleanAndParseJSON : Option RawText → Json
  | none => .events []
  | some .emptyStr => .events []
  | some (.jsonArr l) => .events l
  | some (.jsonNonArr t) => .other t
  | some (.notJson _) => .events []

/-- One step of the normalization `.map` (geminiService.ts lines 109-116 and
186-193): synthesize `id`, `imageUrl` and `link` when the raw field is
falsy.  The `imageUrl` fallback evaluates `ev.title.replace(...)`, which
throws a TypeError when `title` is absent; `.error` models that throw. -/
def normalizeRecord (src city now : String) (idx : Nat) (ev : EventItem) :
    Except Unit EventItem :=
  match (if jsTruthy ev.imageUrl then some (jsStr ev.imageUrl)
         else match ev.title with
           | none => none
           | some t => some ("https://picsum.photos/seed/" ++ jsStripSpace t ++
               natToString idx ++ "/800/600")) with
  | none => .error ()
  | some img =>
    .ok { ev with
      id := some (jsOr ev.id
        (src ++ "-" ++ jsSubstring3 city ++ "-" ++ natToString idx ++ "-" ++ now)),
      imageUrl := some img,
      link := some (jsOr ev.link
        ("https://www.google.com/search?q=" ++
          encodeURIComponent (jsStr ev.title ++ " " ++ city ++ " tickets"))) }

/-- The `.map((ev, idx) => ...)` over the parsed array, threading the index
and propagating a TypeError thrown by any record. -/
def normalizeListFrom (src city now : String) : Nat → List EventItem →
    Except Unit (List EventItem)
  | _, [] => .ok []
  | i, e :: es =>
    match normalizeRecord src city now i e with
    | .error u => .error u
    | .ok e' =>
      match normalizeListFrom src city now (i + 1) es with
      | .error u => .error u
      | .ok es' => .ok (e' :: es')

/-- Applying `.map` to the value `cleanAndParseJSON` returned: on a
non-array JSON value `.map` is not a function and throws. -/
def mapRecords (src city now : String) : Json → Except Unit (List EventItem)
  | .other _ => .error ()
  | .events l => normalizeListFrom src city now 0 l

/-- The full parse-and-normalize pipeline shared verbatim by `searchEvents`
and by the fetch branch of `getInitialRecommendations`, together with the
enclosing `catch` of each of those functions, which converts a thrown
TypeError into the empty result. -/
def normalizeResponse (src city now : String) (txt : Option RawText) :
    List EventItem :=
  match mapRecords src city now (cleanAndParseJSON txt) with
  | .error _ => []
  | .ok l => l

/-- Result of one `getInitialRecommendations` run: the value returned to the
caller, the final `localStorage` contents, and whether the AI collaborator
was invoked. -/
structure LoadOut where
  result : Json
  store : Store
  aiCalled : Bool
deriving DecidableEq

/-- The stale-cache sweep of geminiService.ts lines 142-146: remove every
stored key that starts with the cache marker but differs from `key`. -/
def evictStale (st : Store) (key : String) : Store :=
  st.filter (fun p => !(strStarts p.1 cacheKeyBase && !decide (p.1 = key)))

/-- Steps 2-4 of `getInitialRecommendations` (lines 141-205): evict stale
cache keys, call the collaborator, normalize, and cache a non-empty result;
a collaborator throw or a normalization TypeError is caught and yields `[]`
(with no cache write, since only non-empty results are stored). -/
def fetchFresh (dateStr now city : String) (p : UserProfile)
    (ai : Except Unit (Option RawText)) (st : Store) : LoadOut :=
  let key := generateCacheKey dateStr city p
  let st2 := evictStale st key
  match ai with
  | .error _ => ⟨.events [], st2, true⟩
  | .ok txt =>
    let evs := normalizeResponse "evt" city now txt
    if 0 < evs.length then ⟨.events evs, setItem st2 key (.json (.events evs)), true⟩
    else ⟨.events evs, st2, true⟩

/-- `getInitialRecommendations` (geminiService.ts lines 125-206).  Step 1:
the stored string at the derived key is read and gated by `if (cachedData)`:
a truthy string that `JSON.parse` accepts is returned as-is with no
collaborator call; a truthy string on which parsing throws is removed and
the fetch path runs; an absent entry — or a stored empty string, which is
falsy and skips the whole branch without removal — goes straight to the
fetch path. -/
def getInitialRecommendations (dateStr now city : String) (p : UserProfile)
    (ai : Except Unit (Option RawText)) (st : Store) : LoadOut :=
  let key := generateCacheKey dateStr city p
  match getItem st key with
  | some sv =>
    if svTruthy sv then
      match jsParse sv with
      | some v => ⟨v, st, false⟩
      | none => fetchFresh dateStr now city p ai (removeItem st key)
    else fetchFresh dateStr now city p ai st
  | none => fetchFresh dateStr now city p ai st

/-- `searchEvents` (geminiService.ts lines 75-123): always bypasses the
cache; a collaborator throw is caught and yields `[]`. -/
def searchEvents (city q now : String) (ai : Except Unit (Option RawText)) :
    List EventItem :=
  match ai with
  | .error _ => []
  | .ok txt => normalizeResponse "search" city now txt

/-- `identifyCityFromCoords` (geminiService.ts lines 42-54): returns the
trimmed response text, or `"Unknown Location"` when the text is absent,
trims to empty, or the collaborator throws. -/
def identifyCityFromCoords (lat lng : Int) (ai : Except Unit (Option String)) :
    String :=
  match lat, lng, ai with
  | _, _, .error _ => "Unknown Location"
  | _, _, .ok none => "Unknown Location"
  | _, _, .ok (some s) => if jsTrim s = "" then "Unknown Location" else jsTrim s

/-- Outcome of the browser geolocation attempt in `Dashboard.init`:
`geolocation` missing from `navigator`, `getCurrentPosition` rejecting, or a
position. -/
inductive GeoOutcome where
  | unsupported
  | denied
  | located (lat lng : Int)
deriving DecidableEq

/-- Final Dashboard state after `init` (part_003 lines 46-84). -/
structure InitOut where
  city : String
  load : LoadOut
  error : Option String
  loading : Bool
deriving DecidableEq

/-- `Dashboard.init` (part_003 lines 46-84): resolve the city (profile
city if non-empty, else geolocation plus `identifyCityFromCoords`, else the
fixed fallback `"New York, USA"`), then run the daily load.  All modelled
calls return normally — `getInitialRecommendations` and
`identifyCityFromCoords` catch internally — so the surrounding `catch`
(which would set the error message) is unreachable: `error` stays `none`
and `loading` ends `false`. -/
def dashboardInit (p : UserProfile) (geo : GeoOutcome)
    (geoAI : Except Unit (Option String)) (dateStr now : String)
    (ai : Except Unit (Option RawText)) (st : Store) : InitOut :=
  let city :=
    if p.currentCity = "" then
      match geo with
      | .unsupported => "New York, USA"
      | .denied => "New York, USA"
      | .located lat lng => identifyCityFromCoords lat lng geoAI
    else p.currentCity
  ⟨city, getInitialRecommendations dateStr now city p ai st, none, false⟩

/-- `Dashboard.topPicks` (part_003 lines 127-129):
`allEvents.filter(e => e.recommendationLevel === 'Highly Recommended' || e.isUserCreated)`. -/
def topPicks (l : List EventItem) : List EventItem :=
  l.filter (fun e =>
    decide (e.recommendationLevel = some .highlyRecommended) ||
    decide (e.isUserCreated = some true))

/-- Key under which the profile persists (part_000 lines 12 and 35-37). -/
def profileStoreKey : String := "citysense_user_profile"

/-- Key under which user-created events persist (part_000 line 23/43). -/
def userEventsKey : String := "citysense_user_events"

/-- Key under which saved-event ids persist (part_002, EventCard). -/
def savedEventsKey : String := "savedEvents"

/-- `App.handleReset` (part_000 lines 57-65) combined with the profile
persistence effect (lines 33-39): setting the profile to `null` removes the
profile key, and every key starting with the cache marker is removed. -/
def handleReset (st : Store) : Store :=
  (removeItem st profileStoreKey).filter (fun p => !strStarts p.1 cacheKeyBase)

/-! Helper lemmas about the store model. -/

theorem getItem_eq_none_iff (st : Store) (k : String) :
    getItem st k = none ↔ ∀ pr ∈ st, pr.1 ≠ k := by
  induction st with
  | nil => simp [getItem]
  | cons a rest ih =>
    by_cases h : a.1 = k <;> simp [getItem, h, ih]

theorem getItem_filter_of_true (st : Store) (f : String × StoreVal → Bool)
    (k : String) (h : ∀ v, f (k, v) = true) :
    getItem (st.filter f) k = getItem st k := by
  induction st with
  | nil => rfl
  | cons a rest ih =>
    by_cases hk : a.1 = k
    · have : a = (k, a.2) := by cases a; simp_all
      rw [this]
      simp [List.filter_cons, h a.2, getItem]
    · by_cases hf : f a <;> simp [List.filter_cons, hf, getItem, hk, ih]

theorem getItem_filter_of_false (st : Store) (f : String × StoreVal → Bool)
    (k : String) (h : ∀ v, f (k, v) = false) :
    getItem (st.filter f) k = none := by
  induction st with
  | nil => rfl
  | cons a rest ih =>
    by_cases hk : a.1 = k
    · have : a = (k, a.2) := by cases a; simp_all
      rw [this]
      simp [List.filter_cons, h a.2, ih]
    · by_cases hf : f a <;> simp [List.filter_cons, hf, getItem, hk, ih]

theorem getItem_filter_none (st : Store) (f : String × StoreVal → Bool)
    (k : String) (h : getItem st k = none) : getItem (st.filter f) k = none := by
  rw [getItem_eq_none_iff] at h ⊢
  exact fun pr hpr => h pr (List.mem_of_mem_filter hpr)

theorem getItem_removeItem_self (st : Store) (k : String) :
    getItem (removeItem st k) k = none := by
  apply getItem_filter_of_false
  intro v
  simp

theorem getItem_removeItem_ne (st : Store) (k k' : String) (h : k' ≠ k) :
    getItem (removeItem st k) k' = getItem st k' := by
  apply getItem_filter_of_true
  intro v
  simp [h]

theorem removeItem_no_key (st : Store) (k : String) :
    ∀ pr ∈ removeItem st k, pr.1 ≠ k := by
  intro pr hpr
  have := List.of_mem_filter hpr
  simpa using this

/-- Membership in the evicted store: every surviving scoped key is the
current key. -/
theorem mem_evictStale (st : Store) (key : String) (pr : String × StoreVal)
    (h : pr ∈ evictStale st key) :
    pr ∈ st ∧ (strStarts pr.1 cacheKeyBase = true → pr.1 = key) := by
  unfold evictStale at h
  refine ⟨List.mem_of_mem_filter h, ?_⟩
  intro hs
  have := List.of_mem_filter h
  simp [hs] at this
  exact this

/-- Number of distinct cache-scoped keys in the store: `localStorage` keys
are unique, so this is the number of cache entries. -/
def cacheEntryCount (st : Store) : Nat :=
  ((storeKeys st).filter (fun k => strStarts k cacheKeyBase)).dedup.length

theorem length_le_one_of_nodup_of_all_eq {l : List String} (a : String)
    (hn : l.Nodup) (h : ∀ x ∈ l, x = a) : l.length ≤ 1 := by
  cases l with
  | nil => simp
  | cons x xs =>
    cases xs with
    | nil => simp
    | cons y ys =>
      exfalso
      have hx : x = a := h x (by simp)
      have hy : y = a := h y (by simp)
      subst hx
      rw [hy] at hn
      simp [List.nodup_cons] at hn

/-- A store all of whose cache-scoped keys equal one fixed key holds at most
one cache entry. -/
theorem cacheEntryCount_le_one_of (st : Store) (key : String)
    (h : ∀ k ∈ storeKeys st, strStarts k cacheKeyBase = true → k = key) :
    cacheEntryCount st ≤ 1 := by
  unfold cacheEntryCount
  apply length_le_one_of_nodup_of_all_eq key (List.nodup_dedup _)
  intro x hx
  rw [List.mem_dedup] at hx
  have hx' := List.mem_filter.mp hx
  exact h x hx'.1 hx'.2

/-! Helper lemmas about strings. -/

theorem str_eq_empty_iff (s : String) : s = "" ↔ s.data = [] := by
  constructor
  · intro h
    rw [h]
  · intro h
    cases s
    simp only at h
    subst h
    rfl

theorem append_ne_empty_of_left (a b : String) (h : a ≠ "") : a ++ b ≠ "" := by
  intro hc
  apply h
  have hd := congrArg String.data hc
  rw [String.data_append] at hd
  rw [str_eq_empty_iff]
  exact (List.append_eq_nil.mp hd).1

theorem append_ne_empty_of_right (a b : String) (h : b ≠ "") : a ++ b ≠ "" := by
  intro hc
  apply h
  have hd := congrArg String.data hc
  rw [String.data_append] at hd
  rw [str_eq_empty_iff]
  exact (List.append_eq_nil.mp hd).2

theorem str_append_cancel_left {a b c : String} (h : a ++ b = a ++ c) : b = c := by
  have hd := congrArg String.data h
  rw [String.data_append, String.data_append] at hd
  have := List.append_cancel_left hd
  cases b; cases c
  exact congrArg String.mk this

theorem str_append_cancel_right {a b c : String} (h : a ++ c = b ++ c) : a = b := by
  have hd := congrArg String.data h
  rw [String.data_append, String.data_append] at hd
  have := List.append_cancel_right hd
  cases a; cases b
  exact congrArg String.mk this

/-! Injectivity of the decimal printer. -/

theorem digitChar10_inj {a b : Nat} (ha : a < 10) (hb : b < 10)
    (h : digitChar10 a = digitChar10 b) : a = b := by
  interval_cases a <;> interval_cases b <;> revert h <;> decide

theorem decRevAux_ne_nil (f n : Nat) : decRevAux (f + 1) n ≠ [] := by
  simp only [decRevAux]
  split <;> simp

theorem decRevAux_stable : ∀ f g n, n < f → n < g → decRevAux f n = decRevAux g n := by
  intro f
  induction f with
  | zero => omega
  | succ f ih =>
    intro g n hf hg
    cases g with
    | zero => omega
    | succ g =>
      by_cases h10 : n < 10
      · simp [decRevAux, h10]
      · have hpos : 0 < n := by omega
        have hdiv : n / 10 < n := Nat.div_lt_self hpos (by omega)
        simp only [decRevAux, if_neg h10]
        rw [ih g (n / 10) (by omega) (by omega)]

theorem decRevAux_inj : ∀ n m, decRevAux (n + 1) n = decRevAux (m + 1) m → n = m := by
  intro n
  induction n using Nat.strong_induction_on with
  | _ n ih =>
    intro m h
    by_cases hn : n < 10 <;> by_cases hm : m < 10
    · simp only [decRevAux, if_pos hn, if_pos hm] at h
      exact digitChar10_inj hn hm (by simpa using h)
    · simp only [decRevAux, if_pos hn, if_neg hm] at h
      obtain ⟨m', rfl⟩ : ∃ m', m = m' + 1 := ⟨m - 1, by omega⟩
      injection h with h1 h2
      exact absurd h2.symm (decRevAux_ne_nil m' ((m' + 1) / 10))
    · simp only [decRevAux, if_neg hn, if_pos hm] at h
      obtain ⟨n', rfl⟩ : ∃ n', n = n' + 1 := ⟨n - 1, by omega⟩
      injection h with h1 h2
      exact absurd h2 (decRevAux_ne_nil n' ((n' + 1) / 10))
    · simp only [decRevAux, if_neg hn, if_neg hm] at h
      injection h with hheads htails
      have hmod : n % 10 = m % 10 :=
        digitChar10_inj (Nat.mod_lt n (by omega)) (Nat.mod_lt m (by omega)) hheads
      have hnd : n / 10 < n := Nat.div_lt_self (by omega) (by omega)
      have hmd : m / 10 < m := Nat.div_lt_self (by omega) (by omega)
      have h1 : decRevAux (n / 10 + 1) (n / 10) = decRevAux (m / 10 + 1) (m / 10) := by
        rw [← decRevAux_stable n (n / 10 + 1) (n / 10) (by omega) (by omega),
          ← decRevAux_stable m (m / 10 + 1) (m / 10) (by omega) (by omega)]
        exact htails
      have hdiv : n / 10 = m / 10 := ih (n / 10) hnd (m / 10) h1
      omega

theorem natToString_inj {n m : Nat} (h : natToString n = natToString m) : n = m := by
  unfold natToString at h
  have hd := congrArg String.data h
  simp only at hd
  exact decRevAux_inj n m (List.reverse_injective hd)

/-- Cancellation for the synthesized id pattern
`{src}-{cityPrefix3}-{index}-{timestamp}`. -/
theorem synthId_inj (a now : String) {i j : Nat}
    (h : a ++ natToString i ++ "-" ++ now = a ++ natToString j ++ "-" ++ now) :
    i = j := by
  have h1 : a ++ natToString i ++ "-" = a ++ natToString j ++ "-" :=
    str_append_cancel_right h
  have h2 : a ++ natToString i = a ++ natToString j := str_append_cancel_right h1
  exact natToString_inj (str_append_cancel_left h2)

/-! Helper lemmas about normalization. -/

theorem jsTruthy_some_iff (s : String) : jsTruthy (some s) = true ↔ s ≠ "" := by
  simp [jsTruthy]

theorem jsOr_of_falsy (v : Option String) (d : String) (h : jsTruthy v = false) :
    jsOr v d = d := by
  cases v with
  | none => rfl
  | some s =>
    have hs : s = "" := by simpa [jsTruthy] using h
    simp [jsOr, hs]

theorem jsOr_ne_empty (v : Option String) (d : String) (h : d ≠ "") :
    jsOr v d ≠ "" := by
  cases v with
  | none => exact h
  | some s =>
    by_cases hs : s = "" <;> simp [jsOr, hs] <;> assumption

/-- The default value of a synthesized id is never empty. -/
theorem synthDefault_ne_empty (src city now : String) (idx : Nat) :
    src ++ "-" ++ jsSubstring3 city ++ "-" ++ natToString idx ++ "-" ++ now ≠ "" :=
  append_ne_empty_of_left _ now
    (append_ne_empty_of_right _ "-" (by decide))

/-- Fields guaranteed by one successful normalization step, and the exact id
it produces. -/
theorem normalizeRecord_ok (src city now : String) (idx : Nat) (ev e' : EventItem)
    (h : normalizeRecord src city now idx ev = .ok e') :
    jsTruthy e'.id = true ∧ jsTruthy e'.imageUrl = true ∧ jsTruthy e'.link = true ∧
    e'.id = some (jsOr ev.id
      (src ++ "-" ++ jsSubstring3 city ++ "-" ++ natToString idx ++ "-" ++ now)) := by
  unfold normalizeRecord at h
  split at h
  · exact absurd h (by simp)
  · next img heq =>
    have he : e' = { ev with
        id := some (jsOr ev.id
          (src ++ "-" ++ jsSubstring3 city ++ "-" ++ natToString idx ++ "-" ++ now)),
        imageUrl := some img,
        link := some (jsOr ev.link
          ("https://www.google.com/search?q=" ++
            encodeURIComponent (jsStr ev.title ++ " " ++ city ++ " tickets"))) } := by
      injection h with h'
      exact h'.symm
    subst he
    refine ⟨?_, ?_, ?_, rfl⟩
    · rw [jsTruthy_some_iff]
      exact jsOr_ne_empty _ _ (synthDefault_ne_empty src city now idx)
    · rw [jsTruthy_some_iff]
      split at heq
      · next htr =>
        cases hiu : ev.imageUrl with
        | none => rw [hiu] at htr; exact absurd htr (by simp [jsTruthy])
        | some s =>
          rw [hiu] at htr heq
          injection heq with heq'
          rw [← heq']
          simpa [jsStr] using (jsTruthy_some_iff s).mp htr
      · cases ht : ev.title with
        | none => rw [ht] at heq; exact absurd heq (by simp)
        | some t =>
          rw [ht] at heq
          injection heq with heq'
          rw [← heq']
          exact append_ne_empty_of_left _ _ (append_ne_empty_of_left _ _
            (append_ne_empty_of_left _ _ (by decide)))
    · rw [jsTruthy_some_iff]
      exact jsOr_ne_empty _ _ (append_ne_empty_of_left _ _ (by decide))

/-- A successful normalization pass preserves length, establishes the Event
invariants at every index, and synthesizes the documented id pattern
whenever the raw record's id is falsy. -/
theorem normalizeListFrom_ok (src city now : String) :
    ∀ (raw : List EventItem) (i0 : Nat) (out : List EventItem),
    normalizeListFrom src city now i0 raw = .ok out →
    out.length = raw.length ∧
    ∀ j (hj : j < out.length),
      (jsTruthy (out.get ⟨j, hj⟩).id = true ∧
       jsTruthy (out.get ⟨j, hj⟩).imageUrl = true ∧
       jsTruthy (out.get ⟨j, hj⟩).link = true) ∧
      ∀ (hr : j < raw.length), jsTruthy ((raw.get ⟨j, hr⟩).id) = false →
        (out.get ⟨j, hj⟩).id = some (src ++ "-" ++ jsSubstring3 city ++ "-" ++
          natToString (i0 + j) ++ "-" ++ now) := by
  intro raw
  induction raw with
  | nil =>
    intro i0 out h
    simp only [normalizeListFrom] at h
    injection h with h'
    subst h'
    simp
  | cons e es ih =>
    intro i0 out h
    simp only [normalizeListFrom] at h
    split at h
    · exact absurd h (by simp)
    · next e' hrec =>
      split at h
      · exact absurd h (by simp)
      · next es' hrest =>
        injection h with h'
        subst h'
        obtain ⟨hlen, hidx⟩ := ih (i0 + 1) es' hrest
        obtain ⟨h1, h2, h3, hid⟩ := normalizeRecord_ok src city now i0 e e' hrec
        refine ⟨by simpa using hlen, ?_⟩
        intro j hj
        cases j with
        | zero =>
          refine ⟨⟨h1, h2, h3⟩, ?_⟩
          intro hr hfalsy
          simp only [List.get] at hfalsy ⊢
          rw [hid, jsOr_of_falsy _ _ hfalsy]
          simp
        | succ j =>
          have hj' : j < es'.length := by simpa using hj
          obtain ⟨hinv, hshape⟩ := hidx j hj'
          refine ⟨hinv, ?_⟩
          intro hr hfalsy
          have hr' : j < es.length := by simpa using hr
          have := hshape hr' (by simpa using hfalsy)
          simpa [Nat.add_assoc, Nat.add_comm 1 j] using this

/-- After the fetch path runs, every cache-scoped key left in the store is
the current key (the sweep removed the others, and only the current key may
be written). -/
theorem fetchFresh_scoped_keys (dateStr now city : String) (p : UserProfile)
    (ai : Except Unit (Option RawText)) (st1 : Store) :
    ∀ k ∈ storeKeys (fetchFresh dateStr now city p ai st1).store,
      strStarts k cacheKeyBase = true → k = generateCacheKey dateStr city p := by
  intro k hk hs
  cases ai with
  | error e =>
    simp only [fetchFresh, storeKeys] at hk
    obtain ⟨pr, hpr, rfl⟩ := List.mem_map.mp hk
    exact (mem_evictStale st1 _ pr hpr).2 hs
  | ok txt =>
    simp only [fetchFresh] at hk
    by_cases hlen : 0 < (normalizeResponse "evt" city now txt).length
    · rw [if_pos hlen] at hk
      simp only [setItem, storeKeys, List.map_append] at hk
      rcases List.mem_append.mp hk with h1 | h2
      · obtain ⟨pr, hpr, rfl⟩ := List.mem_map.mp h1
        have hpr' : pr ∈ evictStale st1 (generateCacheKey dateStr city p) :=
          List.mem_of_mem_filter hpr
        exact (mem_evictStale st1 _ pr hpr').2 hs
      · simpa using h2
    · rw [if_neg hlen] at hk
      simp only [storeKeys] at hk
      obtain ⟨pr, hpr, rfl⟩ := List.mem_map.mp hk
      exact (mem_evictStale st1 _ pr hpr).2 hs

/-- After the fetch path runs, at most one cache-scoped entry remains. -/
theorem fetchFresh_cacheEntryCount (dateStr now city : String) (p : UserProfile)
    (ai : Except Unit (Option RawText)) (st1 : Store) :
    cacheEntryCount (fetchFresh dateStr now city p ai st1).store ≤ 1 :=
  cacheEntryCount_le_one_of _ (generateCacheKey dateStr city p)
    (fetchFresh_scoped_keys dateStr now city p ai st1)

/-! Claim theorems. -/

/-- C1: if the persistent store already holds, at the key derived from
(city, profile interests, today), a parseable JSON payload previously
written by a successful daily load (i.e. the serialization of an Event
list), then `getInitialRecommendations` returns exactly that stored list,
leaves the store untouched, and makes no call to the AI collaborator. -/
theorem c1_cache_hit_returns_stored (dateStr now city : String) (p : UserProfile)
    (ai : Except Unit (Option RawText)) (st : Store) (l : List EventItem)
    (h : getItem st (generateCacheKey dateStr city p) = some (.json (.events l))) :
    getInitialRecommendations dateStr now city p ai st = ⟨.events l, st, false⟩ := by
  simp [getInitialRecommendations, h, svTruthy, jsParse]

/-- C1 witness: a concrete store holding a one-event payload at today's key
is returned verbatim with no collaborator call. -/
theorem c1_witness :
    getItem
      [(generateCacheKey "Fri Oct 27 2023" "Miami" ⟨"A", true, ["Jazz"], false, [], "Miami"⟩,
        StoreVal.json (.events [{ id := some "e1" }]))]
      (generateCacheKey "Fri Oct 27 2023" "Miami" ⟨"A", true, ["Jazz"], false, [], "Miami"⟩)
      = some (.json (.events [{ id := some "e1" }])) ∧
    getInitialRecommendations "Fri Oct 27 2023" "T" "Miami"
      ⟨"A", true, ["Jazz"], false, [], "Miami"⟩ (.error ())
      [(generateCacheKey "Fri Oct 27 2023" "Miami" ⟨"A", true, ["Jazz"], false, [], "Miami"⟩,
        StoreVal.json (.events [{ id := some "e1" }]))]
      = ⟨.events [{ id := some "e1" }],
        [(generateCacheKey "Fri Oct 27 2023" "Miami" ⟨"A", true, ["Jazz"], false, [], "Miami"⟩,
          StoreVal.json (.events [{ id := some "e1" }]))], false⟩ :=
  ⟨by decide,
   c1_cache_hit_returns_stored "Fri Oct 27 2023" "T" "Miami"
     ⟨"A", true, ["Jazz"], false, [], "Miami"⟩ (.error ()) _ _ (by decide)⟩

/-- C4: the cache key is a pure function of (city, interest set, day):
permuting the interests and changing the city in a way that is invariant
under whitespace-stripping plus lowercasing yields the identical key. -/
theorem c4_cache_key_canonical (dateStr ca cb : String) (p1 p2 : UserProfile)
    (hperm : List.Perm p1.interests p2.interests)
    (hcity : jsToLowerCase (jsStripSpace ca) = jsToLowerCase (jsStripSpace cb)) :
    generateCacheKey dateStr ca p1 = generateCacheKey dateStr cb p2 := by
  unfold generateCacheKey
  rw [hcity]
  have hsort : List.insertionSort (fun a b : String => a ≤ b) p1.interests
      = List.insertionSort (fun a b : String => a ≤ b) p2.interests :=
    List.eq_of_perm_of_sorted
      (((List.perm_insertionSort _ p1.interests).trans hperm).trans
        (List.perm_insertionSort _ p2.interests).symm)
      (List.sorted_insertionSort _ p1.interests)
      (List.sorted_insertionSort _ p2.interests)
  rw [hsort]

/-- C4 witness: reordered interests and a recased, respaced city give the
same concrete key. -/
theorem c4_witness :
    generateCacheKey "Fri Oct 27 2023" "New  York, USA"
      ⟨"u1", true, ["Jazz", "Art Galleries"], false, [], ""⟩
    = generateCacheKey "Fri Oct 27 2023" "new york, usa"
      ⟨"u2", false, ["Art Galleries", "Jazz"], true, ["X"], "q"⟩ :=
  c4_cache_key_canonical "Fri Oct 27 2023" "New  York, USA" "new york, usa"
    ⟨"u1", true, ["Jazz", "Art Galleries"], false, [], ""⟩
    ⟨"u2", false, ["Art Galleries", "Jazz"], true, ["X"], "q"⟩
    (by decide) (by decide)

/-- C9: `topPicks` keeps exactly the events whose recommendation level is
`Highly Recommended` plus all user-created events (a user-created event is
kept regardless of its level), and no other event. -/
theorem c9_topPicks_characterization (l : List EventItem) (e : EventItem) :
    e ∈ topPicks l ↔
      e ∈ l ∧ (e.recommendationLevel = some .highlyRecommended ∨
        e.isUserCreated = some true) := by
  simp [topPicks, List.mem_filter]

/-- C10: an explicit profile reset removes the stored profile and every
recommendation-cache key, and leaves the persisted user-created event list
and the saved-event id set unchanged. -/
theorem c10_reset_frame (st : Store) :
    getItem (handleReset st) profileStoreKey = none ∧
    (∀ k, strStarts k cacheKeyBase = true → getItem (handleReset st) k = none) ∧
    getItem (handleReset st) userEventsKey = getItem st userEventsKey ∧
    getItem (handleReset st) savedEventsKey = getItem st savedEventsKey := by
  unfold handleReset
  refine ⟨?_, ?_, ?_, ?_⟩
  · exact getItem_filter_none _ _ _ (getItem_removeItem_self st profileStoreKey)
  · intro k hk
    exact getItem_filter_of_false _ _ _ (fun v => by simp [hk])
  · rw [getItem_filter_of_true _ _ _
      (fun v => by simp [show strStarts userEventsKey cacheKeyBase = false from by decide])]
    exact getItem_removeItem_ne st profileStoreKey userEventsKey (by decide)
  · rw [getItem_filter_of_true _ _ _
      (fun v => by simp [show strStarts savedEventsKey cacheKeyBase = false from by decide])]
    exact getItem_removeItem_ne st profileStoreKey savedEventsKey (by decide)

/-- C10 witness: on a concrete store, a reset empties a cache key while the
user-events entry survives. -/
theorem c10_witness :
    getItem (handleReset [(userEventsKey, StoreVal.json (.other 1)),
        ("CITYSENSE_EVENTS_CACHE_x", StoreVal.malformed 0)])
      "CITYSENSE_EVENTS_CACHE_x" = none ∧
    getItem (handleReset [(userEventsKey, StoreVal.json (.other 1)),
        ("CITYSENSE_EVENTS_CACHE_x", StoreVal.malformed 0)]) userEventsKey
      = getItem [(userEventsKey, StoreVal.json (.other 1)),
        ("CITYSENSE_EVENTS_CACHE_x", StoreVal.malformed 0)] userEventsKey :=
  ⟨(c10_reset_frame _).2.1 "CITYSENSE_EVENTS_CACHE_x" (by decide),
   (c10_reset_frame _).2.2.1⟩

/-- C5: on every cache-miss daily load, the eviction sweep that runs before
any store happens removes every cache-scoped key other than the current one,
and after the load completes at most one cache entry exists in the store. -/
theorem c5_evict_then_single_entry (dateStr now city : String) (p : UserProfile)
    (ai : Except Unit (Option RawText)) (st : Store)
    (hmiss : ∀ sv, getItem st (generateCacheKey dateStr city p) = some sv →
      jsParse sv = none) :
    (∀ pr ∈ evictStale st (generateCacheKey dateStr city p),
        strStarts pr.1 cacheKeyBase = true → pr.1 = generateCacheKey dateStr city p) ∧
    cacheEntryCount (getInitialRecommendations dateStr now city p ai st).store ≤ 1 := by
  constructor
  · intro pr hpr
    exact (mem_evictStale st _ pr hpr).2
  · cases hg : getItem st (generateCacheKey dateStr city p) with
    | none =>
      simp only [getInitialRecommendations, hg]
      exact fetchFresh_cacheEntryCount dateStr now city p ai st
    | some sv =>
      cases sv with
      | json v => exact absurd (hmiss _ hg) (by simp [jsParse])
      | emptyStr =>
        simp [getInitialRecommendations, hg, svTruthy]
        exact fetchFresh_cacheEntryCount dateStr now city p ai st
      | malformed t =>
        simp [getInitialRecommendations, hg, svTruthy, jsParse]
        exact fetchFresh_cacheEntryCount dateStr now city p ai _

/-- C5 witness: a concrete stale entry plus a fresh successful load leaves at
most one cache entry. -/
theorem c5_witness :
    cacheEntryCount (getInitialRecommendations "d" "T" "c"
      ⟨"A", true, ["Jazz"], false, [], ""⟩
      (.ok (some (.jsonArr [{ title := some "t" }])))
      [("CITYSENSE_EVENTS_CACHE_old", StoreVal.json (.events []))]).store ≤ 1 :=
  (c5_evict_then_single_entry "d" "T" "c" ⟨"A", true, ["Jazz"], false, [], ""⟩
    (.ok (some (.jsonArr [{ title := some "t" }])))
    [("CITYSENSE_EVENTS_CACHE_old", StoreVal.json (.events []))]
    (fun sv h => by
      rw [(by decide : getItem [("CITYSENSE_EVENTS_CACHE_old", StoreVal.json (.events []))]
        (generateCacheKey "d" "c" ⟨"A", true, ["Jazz"], false, [], ""⟩)
          = (none : Option StoreVal))] at h
      exact Option.noConfusion h)).2

/-- C3: normalization never throws outward — malformed text, the empty
string, and any response all yield a list, every element of which has a
non-empty id, imageUrl and link — and a record whose id is absent or empty
receives the synthesized id `{sourcePrefix}-{cityPrefix3}-{index}-{timestamp}`. -/
theorem c3_normalize_total (src city now : String) (txt : Option RawText) :
    (∀ e ∈ normalizeResponse src city now txt,
        jsTruthy e.id = true ∧ jsTruthy e.imageUrl = true ∧ jsTruthy e.link = true) ∧
    (∀ t, normalizeResponse src city now (some (.notJson t)) = []) ∧
    normalizeResponse src city now (some .emptyStr) = [] ∧
    (∀ (raw : List EventItem) (i : Nat)
        (hi : i < (normalizeResponse src city now (some (.jsonArr raw))).length)
        (hr : i < raw.length),
      jsTruthy ((raw.get ⟨i, hr⟩).id) = false →
      ((normalizeResponse src city now (some (.jsonArr raw))).get ⟨i, hi⟩).id
        = some (src ++ "-" ++ jsSubstring3 city ++ "-" ++ natToString i ++ "-" ++ now)) := by
  refine ⟨?_, fun t => rfl, rfl, ?_⟩
  · intro e he
    rcases txt with _ | tx
    · simp [normalizeResponse, cleanAndParseJSON, mapRecords, normalizeListFrom] at he
    · cases tx with
      | emptyStr =>
        simp [normalizeResponse, cleanAndParseJSON, mapRecords, normalizeListFrom] at he
      | jsonNonArr t => simp [normalizeResponse, cleanAndParseJSON, mapRecords] at he
      | notJson t =>
        simp [normalizeResponse, cleanAndParseJSON, mapRecords, normalizeListFrom] at he
      | jsonArr raw =>
        revert he
        simp only [normalizeResponse, cleanAndParseJSON, mapRecords]
        cases hout : normalizeListFrom src city now 0 raw with
        | error u => intro he; simp at he
        | ok out =>
          intro he
          obtain ⟨hlen, hidx⟩ := normalizeListFrom_ok src city now raw 0 out hout
          obtain ⟨⟨i, hi⟩, rfl⟩ := List.mem_iff_get.mp he
          exact (hidx i hi).1
  · intro raw i hi hr hfalsy
    revert hi
    simp only [normalizeResponse, cleanAndParseJSON, mapRecords]
    cases hout : normalizeListFrom src city now 0 raw with
    | error u => intro hi; exact absurd hi (by simp)
    | ok out =>
      intro hi
      obtain ⟨hlen, hidx⟩ := normalizeListFrom_ok src city now raw 0 out hout
      simpa using (hidx i hi).2 hr hfalsy

/-- C3 witness: one concrete record with no id gets the documented
synthesized id shape. -/
theorem c3_witness :
    ((normalizeResponse "search" "Miami, USA" "T7"
        (some (.jsonArr [{ title := some "Jazz Night" }]))).get ⟨0, by decide⟩).id
      = some ("search" ++ "-" ++ jsSubstring3 "Miami, USA" ++ "-" ++
          natToString 0 ++ "-" ++ "T7") :=
  (c3_normalize_total "search" "Miami, USA" "T7"
      (some (.jsonArr [{ title := some "Jazz Night" }]))).2.2.2
    [{ title := some "Jazz Night" }] 0 (by decide) (by decide) (by decide)

/-- C2 counterexample: with an empty cache and a failing collaborator call,
the dashboard finishes with `error = none` and an empty event list — it
never transitions to a failed state or surfaces a message, contradicting
the claim (which asserts a Failed state rather than a silent empty result). -/
theorem c2_counterexample :
    (dashboardInit ⟨"A", true, ["Jazz"], false, [], "Miami"⟩ .unsupported (.error ())
      "d" "T" (.error ()) []).error = none ∧
    (dashboardInit ⟨"A", true, ["Jazz"], false, [], "Miami"⟩ .unsupported (.error ())
      "d" "T" (.error ()) []).load.result = .events [] ∧
    (dashboardInit ⟨"A", true, ["Jazz"], false, [], "Miami"⟩ .unsupported (.error ())
      "d" "T" (.error ()) []).load.aiCalled = true := by
  decide

/-- C2 amended: a collaborator failure during a cache-miss daily load is
absorbed inside the service: the load returns the empty list, the
collaborator is attempted exactly once (never retried), and the dashboard's
error field stays `none` in every run, so no user-facing message appears —
the UI shows an empty result instead of a Failed state. -/
theorem c2_amended_error_absorbed (dateStr now city : String) (p : UserProfile)
    (st : Store)
    (hmiss : ∀ sv, getItem st (generateCacheKey dateStr city p) = some sv →
      jsParse sv = none) :
    (getInitialRecommendations dateStr now city p (.error ()) st).result = .events [] ∧
    (getInitialRecommendations dateStr now city p (.error ()) st).aiCalled = true ∧
    ∀ (q : UserProfile) (geo : GeoOutcome) (geoAI : Except Unit (Option String))
      (ai : Except Unit (Option RawText)) (st' : Store),
      (dashboardInit q geo geoAI dateStr now ai st').error = none := by
  refine ⟨?_, ?_, fun q geo geoAI ai st' => rfl⟩
  all_goals
    cases hg : getItem st (generateCacheKey dateStr city p) with
    | none => simp [getInitialRecommendations, hg, fetchFresh]
    | some sv =>
      cases sv with
      | json v => exact absurd (hmiss _ hg) (by simp [jsParse])
      | emptyStr => simp [getInitialRecommendations, hg, svTruthy, fetchFresh]
      | malformed t =>
        simp [getInitialRecommendations, hg, svTruthy, jsParse, fetchFresh]

/-- C2 witness: concrete empty store, failing collaborator. -/
theorem c2_witness :
    (getInitialRecommendations "d" "T" "Miami" ⟨"A", true, ["Jazz"], false, [], "Miami"⟩
      (.error ()) []).result = .events [] ∧
    (getInitialRecommendations "d" "T" "Miami" ⟨"A", true, ["Jazz"], false, [], "Miami"⟩
      (.error ()) []).aiCalled = true ∧
    ∀ (q : UserProfile) (geo : GeoOutcome) (geoAI : Except Unit (Option String))
      (ai : Except Unit (Option RawText)) (st' : Store),
      (dashboardInit q geo geoAI "d" "T" ai st').error = none :=
  c2_amended_error_absorbed "d" "T" "Miami" ⟨"A", true, ["Jazz"], false, [], "Miami"⟩ []
    (fun sv h => Option.noConfusion h)

/-- C6 counterexample: a stored payload that parses as JSON but is not an
Event list (so it fails structural validation) is returned as the result as
if it were a hit: the entry is not removed and no fresh fetch happens,
contradicting the claimed degrade-to-Miss behavior. -/
theorem c6_counterexample :
    getInitialRecommendations "d" "T" "c" ⟨"A", true, [], false, [], ""⟩ (.error ())
      [(generateCacheKey "d" "c" ⟨"A", true, [], false, [], ""⟩, StoreVal.json (.other 7))]
    = ⟨.other 7,
       [(generateCacheKey "d" "c" ⟨"A", true, [], false, [], ""⟩, StoreVal.json (.other 7))],
       false⟩ := by
  decide

/-- C6 amended: the cache read never throws, and it validates nothing
structurally, only truthiness and JSON parsing: an absent entry degrades to
a Miss and the fetch path proceeds on the unchanged store; a stored empty
string is falsy, so it also degrades to a Miss but is never removed; a
truthy stored string on which JSON parsing throws is removed and then the
fetch path proceeds; and any truthy payload that parses as JSON is returned
verbatim with no collaborator call. -/
theorem c6_amended_parse_only (dateStr now city : String) (p : UserProfile)
    (ai : Except Unit (Option RawText)) (st : Store) :
    (getItem st (generateCacheKey dateStr city p) = none →
      getInitialRecommendations dateStr now city p ai st
        = fetchFresh dateStr now city p ai st) ∧
    (getItem st (generateCacheKey dateStr city p) = some .emptyStr →
      getInitialRecommendations dateStr now city p ai st
        = fetchFresh dateStr now city p ai st) ∧
    (∀ sv, getItem st (generateCacheKey dateStr city p) = some sv →
      svTruthy sv = true → jsParse sv = none →
      getInitialRecommendations dateStr now city p ai st
        = fetchFresh dateStr now city p ai
            (removeItem st (generateCacheKey dateStr city p))) ∧
    (∀ sv v, getItem st (generateCacheKey dateStr city p) = some sv → jsParse sv = some v →
      getInitialRecommendations dateStr now city p ai st = ⟨v, st, false⟩) := by
  refine ⟨fun hg => by simp [getInitialRecommendations, hg],
          fun hg => by simp [getInitialRecommendations, hg, svTruthy],
          fun sv hg htr hp => by simp [getInitialRecommendations, hg, htr, hp],
          fun sv v hg hp => ?_⟩
  cases sv with
  | json w =>
    have hw : w = v := by simpa [jsParse] using hp
    subst hw
    simp [getInitialRecommendations, hg, svTruthy, jsParse]
  | emptyStr => exact absurd hp (by simp [jsParse])
  | malformed t => exact absurd hp (by simp [jsParse])

/-- C6 witness: a stored empty string behaves as a Miss on the unchanged
store, while a truthy malformed string is removed before the fetch path. -/
theorem c6_witness :
    (getInitialRecommendations "d" "T" "c" ⟨"A", true, [], false, [], ""⟩ (.error ())
      [(generateCacheKey "d" "c" ⟨"A", true, [], false, [], ""⟩, StoreVal.emptyStr)]
    = fetchFresh "d" "T" "c" ⟨"A", true, [], false, [], ""⟩ (.error ())
        [(generateCacheKey "d" "c" ⟨"A", true, [], false, [], ""⟩, StoreVal.emptyStr)]) ∧
    (getInitialRecommendations "d" "T" "c" ⟨"A", true, [], false, [], ""⟩ (.error ())
      [(generateCacheKey "d" "c" ⟨"A", true, [], false, [], ""⟩, StoreVal.malformed 3)]
    = fetchFresh "d" "T" "c" ⟨"A", true, [], false, [], ""⟩ (.error ())
        (removeItem
          [(generateCacheKey "d" "c" ⟨"A", true, [], false, [], ""⟩, StoreVal.malformed 3)]
          (generateCacheKey "d" "c" ⟨"A", true, [], false, [], ""⟩))) :=
  ⟨(c6_amended_parse_only "d" "T" "c" ⟨"A", true, [], false, [], ""⟩ (.error ())
      [(generateCacheKey "d" "c" ⟨"A", true, [], false, [], ""⟩, StoreVal.emptyStr)]).2.1
    (by decide),
   (c6_amended_parse_only "d" "T" "c" ⟨"A", true, [], false, [], ""⟩ (.error ())
      [(generateCacheKey "d" "c" ⟨"A", true, [], false, [], ""⟩,
        StoreVal.malformed 3)]).2.2.1
    (StoreVal.malformed 3) (by decide) (by decide) (by decide)⟩

/-- C7 counterexample: geolocation succeeds but the collaborator call that
resolves the coordinates fails; the resolved city is the fixed string
"Unknown Location", not the claimed fallback to the one fixed default city. -/
theorem c7_counterexample :
    (dashboardInit ⟨"A", true, ["Jazz"], false, [], ""⟩ (.located 0 0) (.error ())
      "d" "T" (.ok none) []).city = "Unknown Location" ∧
    ("Unknown Location" : String) ≠ "New York, USA" := by
  decide

/-- C7 amended: city resolution attempts geolocation; when geolocation is
unsupported or the position is denied, the fixed default "New York, USA" is
used; when geolocation succeeds the city is the trimmed collaborator text,
but on a collaborator failure or unusable text it becomes the distinct fixed
string "Unknown Location" rather than the default city. -/
theorem c7_amended_city_resolution (p : UserProfile)
    (geoAI : Except Unit (Option String)) (dateStr now : String)
    (ai : Except Unit (Option RawText)) (st : Store)
    (h : p.currentCity = "") :
    (dashboardInit p .unsupported geoAI dateStr now ai st).city = "New York, USA" ∧
    (dashboardInit p .denied geoAI dateStr now ai st).city = "New York, USA" ∧
    (∀ lat lng, (dashboardInit p (.located lat lng) geoAI dateStr now ai st).city
        = identifyCityFromCoords lat lng geoAI) ∧
    (∀ lat lng e, identifyCityFromCoords lat lng (Except.error e) = "Unknown Location") ∧
    (∀ lat lng, identifyCityFromCoords lat lng (.ok none) = "Unknown Location") ∧
    (∀ lat lng s, jsTrim s ≠ "" →
      identifyCityFromCoords lat lng (.ok (some s)) = jsTrim s) := by
  refine ⟨by simp [dashboardInit, h], by simp [dashboardInit, h],
    fun lat lng => by simp [dashboardInit, h],
    fun lat lng e => rfl, fun lat lng => rfl,
    fun lat lng s hs => by simp [identifyCityFromCoords, hs]⟩

/-- C7 witness: with an empty profile city and denied geolocation the
default city is used. -/
theorem c7_witness :
    (dashboardInit ⟨"A", true, [], false, [], ""⟩ .denied (.error ()) "d" "T"
      (.error ()) []).city = "New York, USA" :=
  (c7_amended_city_resolution ⟨"A", true, [], false, [], ""⟩ (.error ()) "d" "T"
    (.error ()) [] rfl).2.1

/-- C8 counterexample: when the raw response supplies two records carrying
the same non-empty id, normalization keeps both ids verbatim, so the ids of
the search result set are not pairwise distinct. -/
theorem c8_counterexample :
    (searchEvents "c" "q" "T" (.ok (some (.jsonArr
        [{ id := some "a", title := some "t" },
         { id := some "a", title := some "t" }])))).map (fun e => e.id)
      = [some "a", some "a"] ∧
    ¬ ((searchEvents "c" "q" "T" (.ok (some (.jsonArr
        [{ id := some "a", title := some "t" },
         { id := some "a", title := some "t" }])))).map (fun e => e.id)).Nodup := by
  decide

/-- C8 amended: ids are non-empty, and they are pairwise distinct whenever
every raw record's id is absent or empty (all ids synthesized, made unique
by the running index); a supplied id is kept verbatim without
de-duplication, so distinctness is not guaranteed when the raw response
supplies ids itself. -/
theorem c8_amended_synthesized_ids_distinct (src city now : String)
    (raw : List EventItem) (h : ∀ e ∈ raw, jsTruthy e.id = false) :
    ((normalizeResponse src city now (some (.jsonArr raw))).map
      (fun e => e.id)).Nodup := by
  simp only [normalizeResponse, cleanAndParseJSON, mapRecords]
  cases hout : normalizeListFrom src city now 0 raw with
  | error u => simp
  | ok out =>
    show ((out.map (fun e => e.id)).Nodup)
    obtain ⟨hlen, hidx⟩ := normalizeListFrom_ok src city now raw 0 out hout
    rw [List.Nodup, List.pairwise_map, List.pairwise_iff_get]
    intro i j hij heq
    have hi' : (i : Nat) < raw.length := hlen ▸ i.isLt
    have hj' : (j : Nat) < raw.length := hlen ▸ j.isLt
    have hfi : jsTruthy ((raw.get ⟨i, hi'⟩).id) = false := h _ (List.get_mem raw _ _)
    have hfj : jsTruthy ((raw.get ⟨j, hj'⟩).id) = false := h _ (List.get_mem raw _ _)
    have hidi := (hidx i i.isLt).2 hi' hfi
    have hidj := (hidx j j.isLt).2 hj' hfj
    simp only [Fin.eta] at hidi hidj
    rw [hidi, hidj] at heq
    injection heq with heq'
    have : (i : Nat) = (j : Nat) :=
      synthId_inj (src ++ "-" ++ jsSubstring3 city ++ "-") now (by simpa using heq')
    exact absurd (Fin.ext this) (Fin.ne_of_lt hij)

/-- C8 witness: two id-less raw records yield two distinct synthesized ids. -/
theorem c8_witness :
    ((normalizeResponse "evt" "Miami" "T" (some (.jsonArr
        [{ title := some "a" }, { title := some "b" }]))).map
      (fun e => e.id)).Nodup :=
  c8_amended_synthesized_ids_distinct "evt" "Miami" "T"
    [{ title := some "a" }, { title := some "b" }] (by decide)

end CitySense
